import Mathlib

/-!
Shallow embedding of the price-polling program `src/app_7.py`
(fetch a product page, parse name and three prices, compare the observed
current price against the maximum recorded in a SQLite table, send one
Telegram notification per successful cycle, append the observation, sleep).

Modelling conventions:
* The BeautifulSoup view of the fetched HTML is abstracted as a `Soup`
  value: the text of the `h1.ui-pdp-title` element (or `none` when the
  element is absent, which in Python raises `AttributeError` inside
  `parse_page`) and the stripped texts of all
  `span.andes-money-amount__fraction` elements in document order.
  HTML parsing itself is the opaque external structure the spec puts out
  of scope.
* Python `int(text)` on the stripped, dot-free price text is modelled by
  `pyInt`: an optional single sign followed by one or more decimal digits
  (Python's underscore grouping and embedded whitespace acceptance are not
  exercised by any claim and are not modelled).
* The SQLite query `SELECT MAX(new_price), timestamp FROM prices` is
  modelled by `get_max_price` over the in-order list of appended rows:
  SQLite's bare-column rule returns the `timestamp` of a row on which the
  maximum is achieved; the aggregate keeps the first such row while
  scanning in insertion order, which the fold in `maxRow` mirrors.
* Exceptions that the Python code lets escape a function are modelled with
  `Except`; exceptions caught inside a function (`fetch_page`,
  `parse_page`, `send_telegram_message` all catch and log) are modelled by
  the function's ordinary return value.
-/

/-- One row of the `prices` table: the PriceObservation record built by
`parse_page` (product name, the three integer prices, and the wall-clock
timestamp string). -/
structure Record where
  product_name : String
  old_price : Int
  new_price : Int
  installment_price : Int
  timestamp : String
  deriving DecidableEq, Repr

/-- Decimal value of a list of digit characters, most significant first. -/
def digitsVal (cs : List Char) : Nat :=
  cs.foldl (fun a c => a * 10 + (c.toNat - 48)) 0

/-- Helper for `pyInt`, working on the character list of the text. -/
def pyIntAux : List Char → Option Int
  | [] => none
  | c :: rest =>
    if c = '-' then
      if rest ≠ [] ∧ rest.all Char.isDigit then some (-(digitsVal rest : Int)) else none
    else if c = '+' then
      if rest ≠ [] ∧ rest.all Char.isDigit then some ((digitsVal rest : Int)) else none
    else
      if (c :: rest).all Char.isDigit then some ((digitsVal (c :: rest) : Int)) else none

/-- Model of Python `int(s)` on the stripped price text: an optional single
leading sign followed by one or more decimal digits; every other string
raises `ValueError`, modelled as `none`. -/
def pyInt (s : String) : Option Int :=
  pyIntAux s.data

/-- Model of `text.replace('.', '')`: drop every dot (thousands separator). -/
def stripDots (s : String) : String :=
  ⟨s.data.filter (fun c => c ≠ '.')⟩

/-- Abstract view of the parsed HTML document (see the module docstring):
`title` is the text of `h1.ui-pdp-title` (`none` when the element is
missing) and `priceTexts` the stripped texts of all
`span.andes-money-amount__fraction` elements in document order. -/
structure Soup where
  title : Option String
  priceTexts : List String
  deriving DecidableEq, Repr

/-- Embedding of `parse_page` (src/app_7.py lines 39-59). `now` is the
`time.strftime('%Y-%m-%d %H:%M:%S')` value. A missing title
(`AttributeError`), fewer than three price spans (`IndexError`) or a
non-numeric normalized price text (`ValueError`) are all caught by the
`except` clause, which logs and returns `None`. The `Option.bind` chain
mirrors the sequential statements of the Python body: the first failing
step raises and the whole function returns `None`. -/
def parse_page (soup : Soup) (now : String) : Option Record :=
  soup.title.bind fun product_name =>
  (soup.priceTexts[0]?.bind fun t0 => pyInt (stripDots t0)).bind fun old_price =>
  (soup.priceTexts[1]?.bind fun t1 => pyInt (stripDots t1)).bind fun new_price =>
  (soup.priceTexts[2]?.bind fun t2 => pyInt (stripDots t2)).bind fun installment_price =>
  some ⟨product_name, old_price, new_price, installment_price, now⟩

/-- Embedding of `save_to_database` (lines 82-86): append one row when
`data` is a (truthy, i.e. present) record, no-op when it is `None`. -/
def save_to_database (db : List Record) (data : Option Record) : List Record :=
  match data with
  | some r => db ++ [r]
  | none => db

/-- One step of SQLite's `MAX` aggregate with a bare `timestamp` column:
the carried row is replaced exactly when the new row's `new_price` is
strictly greater. -/
def maxStep (best cur : Record) : Record :=
  if best.new_price < cur.new_price then cur else best

/-- The row SQLite's `SELECT MAX(new_price), timestamp FROM prices` takes
its bare column from: scan in insertion order keeping the first row whose
`new_price` is maximal; `none` on an empty table. -/
def maxRow : List Record → Option Record
  | [] => none
  | r :: rs => some (rs.foldl maxStep r)

/-- Embedding of `get_max_price` (lines 89-96): `(max new_price, its
timestamp)` as a pair, or `(None, None)` when the table is empty (then
`MAX` is NULL and `result[0] is not None` fails). -/
def get_max_price (db : List Record) : Option Int × Option String :=
  match maxRow db with
  | some r => (some r.new_price, some r.timestamp)
  | none => (none, none)

/-- Embedding of `send_telegram_message` (lines 99-104). `transportOk`
says whether `bot.send_message` succeeds; the surrounding
`try/except Exception` catches any transport failure and logs it, so the
function returns normally (`Except.ok`) in both cases. -/
def send_telegram_message (transportOk : Bool) : Except String Unit :=
  match (if transportOk then Except.ok () else Except.error "telegram transport failure" :
      Except String Unit) with
  | Except.ok _ => Except.ok ()
  | Except.error _e => Except.ok ()

/-- Observable actions of one cycle of the poll loop. -/
inductive Event where
  | sentNewMax (price : Int)
  | sentInfo (maxPrice : Int) (ts : String)
  | appended (r : Record)
  | slept (seconds : Nat)
  deriving DecidableEq, Repr

/-- Whether an event is a notification send (either branch of step 4). -/
def isSent : Event → Bool
  | Event.sentNewMax _ => true
  | Event.sentInfo _ _ => true
  | _ => false

/-- The notification chosen by the comparison in `main` (lines 130-137),
reading the maximum from `db` as it stands when `get_max_price` is called:
`max_price is None or current_price > max_price` sends the new-maximum
message carrying the current price, anything else the informational
message carrying the stored maximum and its timestamp. -/
def notifOf (db : List Record) (current_price : Int) : Event :=
  match get_max_price db with
  | (none, _) => Event.sentNewMax current_price
  | (some m, tsOpt) =>
    if current_price > m then Event.sentNewMax current_price
    else Event.sentInfo m (tsOpt.getD "")

/-- Result of one pass through the `while True` body: the table contents
and the cycle's observable events in program order. -/
structure CycleResult where
  db : List Record
  events : List Event
  deriving DecidableEq, Repr

/-- Embedding of one iteration of the `while True` body of `main`
(lines 112-144). `fetched` is the fetch outcome (`none` models
`fetch_page` returning `None`, and also an empty body, since
`if not page_content` tests Python falsiness); `now` is the timestamp
`parse_page` stamps; `transportOk` the Telegram transport outcome.
An exception escaping the body would abort the loop and is modelled as
`Except.error`. -/
def runCycle (db : List Record) (fetched : Option Soup) (now : String)
    (transportOk : Bool) : Except String CycleResult :=
  match fetched with
  | none => Except.ok ⟨db, [Event.slept 60]⟩
  | some soup =>
    match parse_page soup now with
    | none => Except.ok ⟨db, [Event.slept 60]⟩
    | some product_info =>
      let current_price := product_info.new_price
      let notif := notifOf db current_price
      match send_telegram_message transportOk with
      | Except.error e => Except.error e
      | Except.ok _ =>
        Except.ok ⟨save_to_database db (some product_info),
          [notif, Event.appended product_info, Event.slept 60]⟩

/-- The environment's inputs to one cycle: fetch outcome, wall-clock
timestamp, Telegram transport outcome. -/
structure CycleInput where
  fetched : Option Soup
  now : String
  transportOk : Bool
  deriving DecidableEq, Repr

/-- Run the poll loop through a finite list of cycle inputs, threading the
table contents; stops early only if a cycle raises. -/
def runCycles (db : List Record) : List CycleInput → Except String (List Record)
  | [] => Except.ok db
  | inp :: rest =>
    match runCycle db inp.fetched inp.now inp.transportOk with
    | Except.error e => Except.error e
    | Except.ok res => runCycles res.db rest

/-- A cycle input on which both the fetch and the parse succeed. -/
def successfulInput (inp : CycleInput) : Prop :=
  ∃ soup product_info, inp.fetched = some soup ∧
    parse_page soup inp.now = some product_info

/-! ## Helper lemmas -/

/-- The try/except around `bot.send_message` swallows every transport
failure, so `send_telegram_message` always returns normally. -/
theorem send_telegram_message_ok (b : Bool) : send_telegram_message b = Except.ok () := by
  cases b <;> rfl

/-- Shape of a successful cycle: one notification decided from the
pre-write table, then the unconditional append, then the sleep. -/
theorem runCycle_success (db : List Record) (soup : Soup) (now : String) (ok : Bool)
    (info : Record) (h : parse_page soup now = some info) :
    runCycle db (some soup) now ok =
      Except.ok ⟨db ++ [info],
        [notifOf db info.new_price, Event.appended info, Event.slept 60]⟩ := by
  simp only [runCycle, h, send_telegram_message_ok, save_to_database]

/-- The tournament step keeps one of its two arguments. -/
theorem maxStep_eq_or (r cur : Record) : maxStep r cur = r ∨ maxStep r cur = cur := by
  unfold maxStep
  split
  · exact Or.inr rfl
  · exact Or.inl rfl

/-- The fold in `maxRow` returns one of the scanned rows. -/
theorem foldl_maxStep_mem (rs : List Record) : ∀ r : Record, rs.foldl maxStep r ∈ r :: rs := by
  induction rs with
  | nil => intro r; simp
  | cons cur rs ih =>
    intro r
    simp only [List.foldl_cons]
    rcases List.mem_cons.mp (ih (maxStep r cur)) with h | h
    · rcases maxStep_eq_or r cur with he | he <;> rw [he] at h ⊢ <;> simp [h]
    · simp [List.mem_cons_of_mem, h]

/-- The fold in `maxRow` dominates every scanned row's `new_price`. -/
theorem foldl_maxStep_ge (rs : List Record) :
    ∀ r : Record, ∀ x ∈ r :: rs, x.new_price ≤ (rs.foldl maxStep r).new_price := by
  induction rs with
  | nil =>
    intro r x hx
    rw [List.mem_singleton] at hx
    subst hx
    exact le_refl _
  | cons cur rs ih =>
    intro r x hx
    simp only [List.foldl_cons]
    have hstep : r.new_price ≤ (maxStep r cur).new_price ∧
        cur.new_price ≤ (maxStep r cur).new_price := by
      constructor <;> (unfold maxStep; split <;> omega)
    rcases List.mem_cons.mp hx with he | hx
    · rw [he]
      exact le_trans hstep.1 (ih (maxStep r cur) _ (List.mem_cons_self _ _))
    · rcases List.mem_cons.mp hx with he | hx
      · rw [he]
        exact le_trans hstep.2 (ih (maxStep r cur) _ (List.mem_cons_self _ _))
      · exact ih (maxStep r cur) x (List.mem_cons_of_mem _ hx)

/-- Characterization of `get_max_price` on a non-empty table: the maximum
`new_price` together with the timestamp of a row achieving it. -/
theorem get_max_price_spec (db : List Record) (hne : db ≠ []) :
    ∃ m t, get_max_price db = (some m, some t) ∧
      (∀ x ∈ db, x.new_price ≤ m) ∧ ∃ x ∈ db, x.new_price = m ∧ x.timestamp = t := by
  match db, hne with
  | r :: rs, _ =>
    refine ⟨(rs.foldl maxStep r).new_price, (rs.foldl maxStep r).timestamp, rfl, ?_, ?_⟩
    · exact fun x hx => foldl_maxStep_ge rs r x hx
    · exact ⟨rs.foldl maxStep r, foldl_maxStep_mem rs r, rfl, rfl⟩

/-- The decided notification is always a send event. -/
theorem isSent_notifOf (db : List Record) (p : Int) : isSent (notifOf db p) = true := by
  unfold notifOf
  rcases hg : get_max_price db with ⟨mo, tso⟩
  cases mo
  · rfl
  · dsimp only
    split <;> rfl

/-- Success characterization of `parse_page`: the record is built exactly
from the title text and the three parsed price texts, in document order. -/
theorem parse_page_eq_some_iff (soup : Soup) (now : String) (r : Record) :
    parse_page soup now = some r ↔
      ∃ name t0 t1 t2 o n i,
        soup.title = some name ∧
        soup.priceTexts[0]? = some t0 ∧ pyInt (stripDots t0) = some o ∧
        soup.priceTexts[1]? = some t1 ∧ pyInt (stripDots t1) = some n ∧
        soup.priceTexts[2]? = some t2 ∧ pyInt (stripDots t2) = some i ∧
        r = ⟨name, o, n, i, now⟩ := by
  constructor
  · intro h
    unfold parse_page at h
    obtain ⟨name, hname, h⟩ := Option.bind_eq_some.mp h
    obtain ⟨o, ho, h⟩ := Option.bind_eq_some.mp h
    obtain ⟨t0, ht0, ho⟩ := Option.bind_eq_some.mp ho
    obtain ⟨n, hn, h⟩ := Option.bind_eq_some.mp h
    obtain ⟨t1, ht1, hn⟩ := Option.bind_eq_some.mp hn
    obtain ⟨i, hi, h⟩ := Option.bind_eq_some.mp h
    obtain ⟨t2, ht2, hi⟩ := Option.bind_eq_some.mp hi
    cases h
    exact ⟨name, t0, t1, t2, o, n, i, hname, ht0, ho, ht1, hn, ht2, hi, rfl⟩
  · rintro ⟨name, t0, t1, t2, o, n, i, hname, ht0, ho, ht1, hn, ht2, hi, rfl⟩
    unfold parse_page
    rw [hname, ht0, ht1, ht2]
    simp [ho, hn, hi]

/-- A price text made of digits only parses to a non-negative integer. -/
theorem pyInt_nonneg_of_digits (s : String) (z : Int)
    (hd : s.data.all Char.isDigit) (h : pyInt s = some z) : 0 ≤ z := by
  unfold pyInt at h
  cases hcs : s.data with
  | nil =>
    rw [hcs] at h
    exact absurd h (by simp [pyIntAux])
  | cons c rest =>
    rw [hcs] at h hd
    have hc : c.isDigit := by
      simp only [List.all_cons, Bool.and_eq_true] at hd
      exact hd.1
    have hcm : ¬ c = '-' := by
      intro he
      rw [he] at hc
      exact absurd hc (by decide)
    have hcp : ¬ c = '+' := by
      intro he
      rw [he] at hc
      exact absurd hc (by decide)
    rw [pyIntAux, if_neg hcm, if_neg hcp, if_pos hd] at h
    cases h
    exact Int.ofNat_nonneg _

/-! ## Claim theorems -/

/-- C1: In every successful poll cycle exactly one notification is chosen:
when the pre-write maximum is the no-data sentinel (empty table, as on the
first cycle) or the observed current price strictly exceeds the stored
maximum, the new-maximum notification carrying the new price is sent;
otherwise (equality included) the informational notification carrying the
recorded maximum and its timestamp is sent. On an empty table the
new-maximum notification is sent whatever the observed price is. -/
theorem C1_notification_choice (db : List Record) (soup : Soup) (now : String) (ok : Bool)
    (info : Record) (h : parse_page soup now = some info) :
    ∃ notif,
      runCycle db (some soup) now ok =
        Except.ok ⟨db ++ [info], [notif, Event.appended info, Event.slept 60]⟩ ∧
      ([notif, Event.appended info, Event.slept 60].countP isSent) = 1 ∧
      (get_max_price db = (none, none) → notif = Event.sentNewMax info.new_price) ∧
      (∀ m t, get_max_price db = (some m, some t) →
        (m < info.new_price → notif = Event.sentNewMax info.new_price) ∧
        (info.new_price ≤ m → notif = Event.sentInfo m t)) ∧
      (db = [] → notif = Event.sentNewMax info.new_price) := by
  refine ⟨notifOf db info.new_price, runCycle_success db soup now ok info h, ?_, ?_, ?_, ?_⟩
  · have ha : ∀ r : Record, isSent (Event.appended r) = false := fun _ => rfl
    have hs : ∀ k : Nat, isSent (Event.slept k) = false := fun _ => rfl
    simp [List.countP_cons, List.countP_nil, isSent_notifOf db info.new_price, ha, hs]
  · intro hg
    unfold notifOf
    rw [hg]
  · intro m t hg
    constructor
    · intro hlt
      unfold notifOf
      rw [hg]
      simp [hlt]
    · intro hle
      unfold notifOf
      rw [hg]
      simp [not_lt.mpr hle]
  · intro hdb
    subst hdb
    rfl

/-- Witness for C1 at a concrete first cycle: empty table, observed price
2000, so the new-maximum notification is sent and the row appended. -/
theorem C1_notification_choice_witness :
    runCycle [] (some ⟨some "iPhone", ["1.234", "2.000", "123"]⟩) "t" true =
      Except.ok ⟨[⟨"iPhone", 1234, 2000, 123, "t"⟩],
        [Event.sentNewMax 2000, Event.appended ⟨"iPhone", 1234, 2000, 123, "t"⟩,
          Event.slept 60]⟩ := by
  obtain ⟨notif, h1, _, _, _, h5⟩ :=
    C1_notification_choice [] ⟨some "iPhone", ["1.234", "2.000", "123"]⟩ "t" true
      ⟨"iPhone", 1234, 2000, 123, "t"⟩ rfl
  rw [h5 rfl] at h1
  simpa using h1

/-- C2: `get_max_price` on a non-empty table returns the maximum
`new_price` over all rows together with the timestamp of a row achieving
it; after inserting rows with current prices 100, 250, 180 it returns 250
with the second row's timestamp; on an empty table it returns the
`(None, None)` sentinel. -/
theorem C2_max_observed_price :
    (get_max_price [] = (none, none)) ∧
    (∀ db : List Record, db ≠ [] →
      ∃ m t, get_max_price db = (some m, some t) ∧
        (∀ x ∈ db, x.new_price ≤ m) ∧ ∃ x ∈ db, x.new_price = m ∧ x.timestamp = t) ∧
    (∀ r1 r2 r3 : Record, r1.new_price = 100 → r2.new_price = 250 → r3.new_price = 180 →
      get_max_price (save_to_database (save_to_database (save_to_database [] (some r1))
        (some r2)) (some r3)) = (some 250, some r2.timestamp)) := by
  refine ⟨rfl, fun db h => get_max_price_spec db h, ?_⟩
  intro r1 r2 r3 h1 h2 h3
  norm_num [save_to_database, get_max_price, maxRow, maxStep, h1, h2, h3]

/-- Witness for C2: three concrete insertions with current prices
100, 250, 180; the maximum is 250 with the second row's timestamp. -/
theorem C2_max_observed_price_witness :
    get_max_price (save_to_database (save_to_database (save_to_database []
      (some ⟨"iPhone", 90, 100, 10, "t1"⟩)) (some ⟨"iPhone", 240, 250, 25, "t2"⟩))
      (some ⟨"iPhone", 170, 180, 18, "t3"⟩)) = (some 250, some "t2") :=
  C2_max_observed_price.2.2 ⟨"iPhone", 90, 100, 10, "t1"⟩ ⟨"iPhone", 240, 250, 25, "t2"⟩
    ⟨"iPhone", 170, 180, 18, "t3"⟩ rfl rfl rfl

/-- Running any list of all-successful cycle inputs appends exactly one
row per cycle. -/
theorem runCycles_success_length (inputs : List CycleInput) :
    ∀ db : List Record, (∀ inp ∈ inputs, successfulInput inp) →
      ∃ final, runCycles db inputs = Except.ok final ∧
        final.length = db.length + inputs.length := by
  induction inputs with
  | nil =>
    intro db _
    exact ⟨db, rfl, by simp⟩
  | cons inp rest ih =>
    intro db hall
    obtain ⟨soup, info, hf, hp⟩ := hall inp (List.mem_cons_self _ _)
    obtain ⟨final, hrun, hlen⟩ := ih (db ++ [info]) (fun i hi => hall i (List.mem_cons_of_mem _ hi))
    refine ⟨final, ?_, ?_⟩
    · simp only [runCycles, hf, runCycle_success db soup inp.now inp.transportOk info hp]
      simpa using hrun
    · simp only [List.length_append, List.length_singleton, List.length_cons,
        List.length_nil] at hlen ⊢
      omega

/-- C3: the maximum used for the step-4 comparison is read from the table
before the cycle's observation is appended (the decision is `notifOf db`,
not `notifOf (db ++ [info])`), the observation is then appended whatever
branch was taken, and after N consecutive successful cycles from an empty
table the row count is exactly N. -/
theorem C3_prewrite_and_count :
    (∀ (db : List Record) (soup : Soup) (now : String) (ok : Bool) (info : Record),
      parse_page soup now = some info →
      runCycle db (some soup) now ok =
        Except.ok ⟨db ++ [info],
          [notifOf db info.new_price, Event.appended info, Event.slept 60]⟩) ∧
    (∀ inputs : List CycleInput, (∀ inp ∈ inputs, successfulInput inp) →
      ∃ final, runCycles [] inputs = Except.ok final ∧ final.length = inputs.length) := by
  refine ⟨runCycle_success, fun inputs h => ?_⟩
  obtain ⟨final, h1, h2⟩ := runCycles_success_length inputs [] h
  exact ⟨final, h1, by simpa using h2⟩

/-- Witness for C3: one concrete successful cycle starting from the empty
table yields exactly one row. -/
theorem C3_prewrite_and_count_witness :
    ∃ final, runCycles []
        [⟨some ⟨some "iPhone", ["1.234", "2.000", "123"]⟩, "t", true⟩] =
      Except.ok final ∧ final.length = 1 := by
  refine C3_prewrite_and_count.2 _ ?_
  intro inp hi
  rw [List.mem_singleton] at hi
  subst hi
  exact ⟨⟨some "iPhone", ["1.234", "2.000", "123"]⟩, ⟨"iPhone", 1234, 2000, 123, "t"⟩, rfl, rfl⟩

/-- C4: a cycle whose fetch fails, or whose parse fails, performs no table
write and no notification send (its only event is the 60-unit sleep, the
table is unchanged), and the loop goes on to the remaining cycles instead
of terminating. -/
theorem C4_failed_cycle_no_effects (db : List Record) (now : String) (ok : Bool) :
    (runCycle db none now ok = Except.ok ⟨db, [Event.slept 60]⟩) ∧
    (∀ soup : Soup, parse_page soup now = none →
      runCycle db (some soup) now ok = Except.ok ⟨db, [Event.slept 60]⟩) ∧
    (∀ e ∈ [Event.slept 60], isSent e = false ∧ ∀ r : Record, e ≠ Event.appended r) ∧
    (∀ (rest : List CycleInput) (fetched : Option Soup),
      (fetched = none ∨ ∃ soup, fetched = some soup ∧ parse_page soup now = none) →
      runCycles db (⟨fetched, now, ok⟩ :: rest) = runCycles db rest) := by
  refine ⟨rfl, ?_, ?_, ?_⟩
  · intro soup hp
    simp [runCycle, hp]
  · intro e he
    rw [List.mem_singleton] at he
    subst he
    exact ⟨rfl, fun r h => Event.noConfusion h⟩
  · intro rest fetched hf
    rcases hf with rfl | ⟨soup, rfl, hp⟩
    · rfl
    · simp [runCycles, runCycle, hp]

/-- Witness for C4: a failed fetch and a failed parse (missing title) each
leave the empty table untouched and only sleep. -/
theorem C4_failed_cycle_no_effects_witness :
    runCycle [] none "t" true = Except.ok ⟨[], [Event.slept 60]⟩ ∧
    runCycle [] (some ⟨none, ["1", "2", "3"]⟩) "t" true = Except.ok ⟨[], [Event.slept 60]⟩ ∧
    runCycles [] [⟨none, "t", true⟩] = runCycles [] [] :=
  ⟨(C4_failed_cycle_no_effects [] "t" true).1,
   (C4_failed_cycle_no_effects [] "t" true).2.1 ⟨none, ["1", "2", "3"]⟩ rfl,
   (C4_failed_cycle_no_effects [] "t" true).2.2.2 [] none (Or.inl rfl)⟩

/-- C5: `parse_page` fails with the `None` result (never an exception
propagated to the caller) when the title is missing, when fewer than three
price texts are present, or when any of the first three normalized price
texts is not numeric; and it never returns a partial record: a successful
result carries all five fields, built from the title, the three parsed
prices and the timestamp. -/
theorem C5_parse_failures_total (soup : Soup) (now : String) :
    (soup.title = none → parse_page soup now = none) ∧
    (soup.priceTexts.length < 3 → parse_page soup now = none) ∧
    (∀ t0 t1 t2 : String, soup.priceTexts[0]? = some t0 → soup.priceTexts[1]? = some t1 →
      soup.priceTexts[2]? = some t2 →
      (pyInt (stripDots t0) = none ∨ pyInt (stripDots t1) = none ∨
        pyInt (stripDots t2) = none) →
      parse_page soup now = none) ∧
    (∀ r : Record, parse_page soup now = some r →
      ∃ name t0 t1 t2,
        soup.title = some name ∧ soup.priceTexts[0]? = some t0 ∧
        soup.priceTexts[1]? = some t1 ∧ soup.priceTexts[2]? = some t2 ∧
        ∃ o n i, pyInt (stripDots t0) = some o ∧ pyInt (stripDots t1) = some n ∧
          pyInt (stripDots t2) = some i ∧ r = ⟨name, o, n, i, now⟩) := by
  refine ⟨?_, ?_, ?_, ?_⟩
  · intro ht
    cases hp : parse_page soup now with
    | none => rfl
    | some r =>
      obtain ⟨name, t0, t1, t2, o, n, i, hname, _⟩ := (parse_page_eq_some_iff soup now r).mp hp
      rw [ht] at hname
      exact Option.noConfusion hname
  · intro hlen
    cases hp : parse_page soup now with
    | none => rfl
    | some r =>
      obtain ⟨name, t0, t1, t2, o, n, i, _, _, _, _, _, ht2, _⟩ :=
        (parse_page_eq_some_iff soup now r).mp hp
      rw [List.getElem?_eq_none (by omega)] at ht2
      exact Option.noConfusion ht2
  · intro t0 t1 t2 h0 h1 h2 hbad
    cases hp : parse_page soup now with
    | none => rfl
    | some r =>
      obtain ⟨name, u0, u1, u2, o, n, i, _, hu0, ho, hu1, hn, hu2, hi, _⟩ :=
        (parse_page_eq_some_iff soup now r).mp hp
      rw [h0] at hu0
      rw [h1] at hu1
      rw [h2] at hu2
      cases hu0
      cases hu1
      cases hu2
      rcases hbad with hb | hb | hb
      · rw [hb] at ho
        exact Option.noConfusion ho
      · rw [hb] at hn
        exact Option.noConfusion hn
      · rw [hb] at hi
        exact Option.noConfusion hi
  · intro r hp
    obtain ⟨name, t0, t1, t2, o, n, i, hname, h0, ho, h1, hn, h2, hi, hr⟩ :=
      (parse_page_eq_some_iff soup now r).mp hp
    exact ⟨name, t0, t1, t2, hname, h0, h1, h2, o, n, i, ho, hn, hi, hr⟩

/-- Witness for C5: a missing title, only two price texts, and a
non-numeric first price text each yield the `None` result. -/
theorem C5_parse_failures_total_witness :
    parse_page ⟨none, ["1", "2", "3"]⟩ "t" = none ∧
    parse_page ⟨some "X", ["1", "2"]⟩ "t" = none ∧
    parse_page ⟨some "X", ["abc", "2", "3"]⟩ "t" = none :=
  ⟨(C5_parse_failures_total ⟨none, ["1", "2", "3"]⟩ "t").1 rfl,
   (C5_parse_failures_total ⟨some "X", ["1", "2"]⟩ "t").2.1 (by norm_num),
   (C5_parse_failures_total ⟨some "X", ["abc", "2", "3"]⟩ "t").2.2.1 "abc" "2" "3"
     rfl rfl rfl (Or.inl rfl)⟩

/-- C6: a notification transport failure is swallowed inside
`send_telegram_message` (the function always returns normally), so a
successful cycle with a failing transport raises nothing, produces the
same result as one with a working transport, and still appends the
observation. -/
theorem C6_notify_failure_swallowed :
    (∀ b : Bool, send_telegram_message b = Except.ok ()) ∧
    (∀ (db : List Record) (soup : Soup) (now : String) (info : Record),
      parse_page soup now = some info →
      runCycle db (some soup) now false =
        Except.ok ⟨db ++ [info],
          [notifOf db info.new_price, Event.appended info, Event.slept 60]⟩ ∧
      runCycle db (some soup) now false = runCycle db (some soup) now true) := by
  refine ⟨send_telegram_message_ok, fun db soup now info h =>
    ⟨runCycle_success db soup now false info h, ?_⟩⟩
  rw [runCycle_success db soup now false info h, runCycle_success db soup now true info h]

/-- Witness for C6: with a failing transport the cycle still returns
normally and appends the observed row. -/
theorem C6_notify_failure_swallowed_witness :
    send_telegram_message false = Except.ok () ∧
    runCycle [] (some ⟨some "iPhone", ["1.234", "2.000", "123"]⟩) "t" false =
      Except.ok ⟨[⟨"iPhone", 1234, 2000, 123, "t"⟩],
        [Event.sentNewMax 2000, Event.appended ⟨"iPhone", 1234, 2000, 123, "t"⟩,
          Event.slept 60]⟩ := by
  refine ⟨C6_notify_failure_swallowed.1 false, ?_⟩
  have h := (C6_notify_failure_swallowed.2 [] ⟨some "iPhone", ["1.234", "2.000", "123"]⟩ "t"
    ⟨"iPhone", 1234, 2000, 123, "t"⟩ rfl).1
  simpa using h

/-- C7: the localized price texts "1.234" and "2.000" are normalized by
removing the thousands-separator dots and parse to the integers 1234 and
2000, as in the record the Extractor yields. -/
theorem C7_thousands_normalization :
    pyInt (stripDots "1.234") = some 1234 ∧ pyInt (stripDots "2.000") = some 2000 ∧
    parse_page ⟨some "iPhone 16 Pro", ["1.234", "2.000", "123"]⟩ "2024-01-01 00:00:00" =
      some ⟨"iPhone 16 Pro", 1234, 2000, 123, "2024-01-01 00:00:00"⟩ :=
  ⟨rfl, rfl, rfl⟩

/-- C8, counterexample: the Extractor accepts a signed normalized price
text (Python `int("-100")` is `-100`), so it can create a fully populated
record whose prior-price field is negative — the claimed non-negativity
invariant fails on this input. -/
theorem C8_counterexample_negative_price :
    parse_page ⟨some "iPhone", ["-100", "2.000", "123"]⟩ "t" =
      some ⟨"iPhone", -100, 2000, 123, "t"⟩ ∧
    ((-100 : Int) < 0) :=
  ⟨rfl, by decide⟩

/-- C8, amended: every successful Extractor result is fully populated —
all five fields are built in one step from the title, the three parsed
price texts in document order and the timestamp, never partially — and the
three price fields are integers that are non-negative whenever every
normalized price text consists of digits only (as on the target site);
a signed text such as "-100" yields the corresponding negative integer. -/
theorem C8_price_fields_amended (soup : Soup) (now : String) (r : Record)
    (h : parse_page soup now = some r) :
    (∃ name t0 t1 t2,
      soup.title = some name ∧ soup.priceTexts[0]? = some t0 ∧
      soup.priceTexts[1]? = some t1 ∧ soup.priceTexts[2]? = some t2 ∧
      pyInt (stripDots t0) = some r.old_price ∧
      pyInt (stripDots t1) = some r.new_price ∧
      pyInt (stripDots t2) = some r.installment_price ∧
      r.product_name = name ∧ r.timestamp = now) ∧
    ((∀ t ∈ soup.priceTexts, (stripDots t).data.all Char.isDigit) →
      0 ≤ r.old_price ∧ 0 ≤ r.new_price ∧ 0 ≤ r.installment_price) := by
  obtain ⟨name, t0, t1, t2, o, n, i, hname, h0, ho, h1, hn, h2, hi, hr⟩ :=
    (parse_page_eq_some_iff soup now r).mp h
  subst hr
  refine ⟨⟨name, t0, t1, t2, hname, h0, h1, h2, ho, hn, hi, rfl, rfl⟩, ?_⟩
  intro hdig
  exact ⟨pyInt_nonneg_of_digits _ _ (hdig t0 (List.getElem?_mem h0)) ho,
    pyInt_nonneg_of_digits _ _ (hdig t1 (List.getElem?_mem h1)) hn,
    pyInt_nonneg_of_digits _ _ (hdig t2 (List.getElem?_mem h2)) hi⟩

/-- Witness for the amended C8: a concrete digit-only page yields
non-negative prices. -/
theorem C8_price_fields_amended_witness :
    (0 : Int) ≤ 1234 ∧ (0 : Int) ≤ 2000 ∧ (0 : Int) ≤ 123 := by
  have h := (C8_price_fields_amended ⟨some "iPhone", ["1.234", "2.000", "123"]⟩ "t"
    ⟨"iPhone", 1234, 2000, 123, "t"⟩ rfl).2 (by decide)
  exact h

/-- C9: the Extractor maps the price texts positionally — the first
becomes `old_price`, the second `new_price` (the value every maximum
comparison and notification uses), the third `installment_price` — and
price texts beyond the third do not influence the result. -/
theorem C9_positional_mapping (name t0 t1 t2 : String) (rest : List String) (now : String) :
    (∀ o n i : Int, pyInt (stripDots t0) = some o → pyInt (stripDots t1) = some n →
      pyInt (stripDots t2) = some i →
      parse_page ⟨some name, t0 :: t1 :: t2 :: rest⟩ now = some ⟨name, o, n, i, now⟩) ∧
    parse_page ⟨some name, t0 :: t1 :: t2 :: rest⟩ now =
      parse_page ⟨some name, [t0, t1, t2]⟩ now := by
  have g0 : (t0 :: t1 :: t2 :: rest)[0]? = some t0 := by simp
  have g1 : (t0 :: t1 :: t2 :: rest)[1]? = some t1 := by simp
  have g2 : (t0 :: t1 :: t2 :: rest)[2]? = some t2 := by simp
  constructor
  · intro o n i h0 h1 h2
    exact (parse_page_eq_some_iff _ now _).mpr
      ⟨name, t0, t1, t2, o, n, i, rfl, g0, h0, g1, h1, g2, h2, rfl⟩
  · simp [parse_page]

/-- Witness for C9: four price texts; the first three map positionally and
the fourth is ignored. -/
theorem C9_positional_mapping_witness :
    parse_page ⟨some "iPhone", ["10", "20", "30", "999"]⟩ "t" =
      some ⟨"iPhone", 10, 20, 30, "t"⟩ :=
  (C9_positional_mapping "iPhone" "10" "20" "30" ["999"] "t").1 10 20 30 rfl rfl rfl

/-- C10: within a successful cycle the notification send happens strictly
before the table append: the event trace splits into a prefix holding the
send and no append, followed by the rest holding the append — the
interleaving point at which a notification exists for a price not yet
recorded. -/
theorem C10_send_before_append (db : List Record) (soup : Soup) (now : String) (ok : Bool)
    (info : Record) (h : parse_page soup now = some info) :
    ∃ pre post,
      runCycle db (some soup) now ok = Except.ok ⟨db ++ [info], pre ++ post⟩ ∧
      (∃ e ∈ pre, isSent e = true) ∧
      (∀ e ∈ pre, ∀ r : Record, e ≠ Event.appended r) ∧
      Event.appended info ∈ post := by
  refine ⟨[notifOf db info.new_price], [Event.appended info, Event.slept 60], ?_, ?_, ?_, ?_⟩
  · exact runCycle_success db soup now ok info h
  · exact ⟨notifOf db info.new_price, List.mem_singleton.mpr rfl,
      isSent_notifOf db info.new_price⟩
  · intro e he r hcontra
    rw [List.mem_singleton] at he
    have hsent := isSent_notifOf db info.new_price
    rw [← he, hcontra] at hsent
    exact Bool.noConfusion hsent
  · simp

/-- Witness for C10 at a concrete successful cycle. -/
theorem C10_send_before_append_witness :
    ∃ pre post,
      runCycle [] (some ⟨some "iPhone", ["1.234", "2.000", "123"]⟩) "t" true =
        Except.ok ⟨[] ++ [⟨"iPhone", 1234, 2000, 123, "t"⟩], pre ++ post⟩ ∧
      (∃ e ∈ pre, isSent e = true) ∧
      (∀ e ∈ pre, ∀ r : Record, e ≠ Event.appended r) ∧
      Event.appended ⟨"iPhone", 1234, 2000, 123, "t"⟩ ∈ post :=
  C10_send_before_append [] ⟨some "iPhone", ["1.234", "2.000", "123"]⟩ "t" true
    ⟨"iPhone", 1234, 2000, 123, "t"⟩ rfl
